import Mathlib

/-!
Shallow embedding of the `@diia-inhouse/http` package (be-pkg-http).

The repository contains two near-duplicate request engines:
`HttpService` (the legacy variant, with a retry loop driven by
`maxRetries`/`retryDelay`) and `HttpClientService` (the client variant,
which parses a full URL out of `options.host` and performs no retries).
Both buffer response body chunks, decode them by content type on stream
end, and wrap the promise outcome into a two-slot result tuple via the
`to` helper from `await-to-js`.

External runtime primitives (`JSON.parse` from the JS runtime and the
WHATWG `new URL(...)` constructor) are modelled as explicit function
parameters of the engines: `jp : String → Option JsonValue` (with `none`
standing for the `SyntaxError` thrown on malformed input) and
`purl : String → Option URLParts` (with `none` standing for the
`Invalid URL` exception).  The transport (node `http.request` /
`https.request`) is modelled as an oracle assigning to every attempt
index its outcome.  Logging never affects control flow and is omitted.
-/

/-- The value produced by the runtime's `JSON.parse`; treated as an
opaque payload by the engines, so its concrete carrier is irrelevant. -/
def JsonValue := String

deriving instance DecidableEq for JsonValue

/-- HTTP verbs used by the four public operations. -/
inductive HttpMethod where
  | GET
  | POST
  | PUT
  | DELETE
deriving DecidableEq, Repr

/-- Peer certificate as seen by the `checkServerIdentity` callback:
`fingerprint256` is the SHA-256 digest field (possibly absent) and
`fingerprint` the legacy digest field. -/
structure PeerCert where
  fingerprint256 : Option String := none
  fingerprint : String := ""

/-- Model of a node `Agent`: the only observable state the source
touches is `agent.options.checkServerIdentity`. The callback receives
the peer host name and certificate and returns `some message` for a
rejection `Error` and `none` for acceptance (`undefined`). -/
structure AgentModel where
  checkServerIdentity : Option (String → PeerCert → Option String) := none

/-- Model of the caller-supplied `RequestOptions`/`ExtendedRequestOptions`
object.  Only the fields the source reads or writes are kept. -/
structure ReqOptions where
  host : Option String := none
  hostname : Option String := none
  port : Option Nat := none
  path : Option String := none
  method : Option HttpMethod := none
  agent : Option AgentModel := none
  timeout : Option Nat := none
  maxRetries : Option Nat := none
  retryDelay : Option Nat := none

/-- Outcome of one transport attempt, as emitted by the node request
object: a full response (status, `content-type` header value, buffered
body chunks ending with the `end` event), an `error` event, a `timeout`
event, an `abort` event, or a synchronous exception thrown by the
request function itself (caught by the surrounding `try`). -/
inductive Attempt where
  | response (statusCode : Nat) (contentType : Option String) (chunks : List String)
  | transportError (msg : String)
  | timeout
  | abort
  | syncThrow (msg : String)

/-- Decoded response body: parsed JSON, a raw byte buffer
(`Buffer.concat`), or UTF-8 text (`data.join('')`). -/
inductive DecodedBody where
  | json (v : JsonValue)
  | bytes (b : String)
  | text (s : String)
deriving DecidableEq

/-- The `IncomingMessage & { data?: unknown }` object handed to
`resolve`/`reject`: status code plus the optional decoded body
(`res.data`, `undefined` when the body was empty). -/
structure HttpRes where
  statusCode : Nat
  data : Option DecodedBody
deriving DecidableEq

/-- Typed errors the engines reject with. `genericError` covers raw
transport `Error`s, synchronous throws, and the client variant's host
validation errors; `jsonParseError s` is the `SyntaxError` raised by
`JSON.parse` on input `s`. -/
inductive TypedError where
  | requestTimeout (msg : String)
  | serviceUnavailable (msg : String)
  | jsonParseError (input : String)
  | genericError (msg : String)
deriving DecidableEq

/-- What lands in the error slot of the result tuple: either the
response object itself (`reject(res)`) or a typed `Error`
(`reject(err)`). -/
inductive TupleError where
  | ofRes (r : HttpRes)
  | ofErr (e : TypedError)
deriving DecidableEq

/-- A settled promise: `resolve(res)`, `reject(res)` or `reject(err)`. -/
inductive Settled where
  | resolved (r : HttpRes)
  | rejectedRes (r : HttpRes)
  | rejectedErr (e : TypedError)
deriving DecidableEq

/-- The `to` adapter from `await-to-js`: a fulfilled promise becomes
`[null, value]` and a rejected one `[err, undefined]`.  Modelled as a
pair of options mirroring the two tuple slots. -/
def toAdapter : Settled → Option TupleError × Option HttpRes
  | .resolved r => (none, some r)
  | .rejectedRes r => (some (.ofRes r), none)
  | .rejectedErr e => (some (.ofErr e), none)

/-- The unanchored regex test `/2\d{2}/.test(statusCode.toString())`
applied to a character list: some `'2'` is followed by at least two
digit characters. -/
def regexTwoDigits : List Char → Bool
  | [] => false
  | c :: rest =>
    (c = '2' && match rest with
      | a :: b :: _ => a.isDigit && b.isDigit
      | _ => false) || regexTwoDigits rest

/-- `isSuccessStatusCode` from both engines:
`/2\d{2}/.test(statusCode.toString())`. -/
def isSuccessStatusCode (statusCode : Nat) : Bool :=
  regexTwoDigits (toString statusCode).data

/-- `binaryMimeTypes = ['application/pdf', 'application/p7s']`. -/
def binaryMimeTypes : List String := ["application/pdf", "application/p7s"]

/-- The binary MIME type beginnings (source field
`binaryMimeTypesPre` + `fixes`, value `['image/']`). -/
def binaryMimeTypeHeads : List String := ["image/"]

/-- `isJsonContentType` (identical in both classes): the header is
present and `/^application\/json/` matches it — a case-sensitive
begins-with test (expressed on the character lists so that it computes
by kernel reduction). -/
def isJsonContentType : Option String → Bool
  | none => false
  | some ct => "application/json".data.isPrefixOf ct.data

/-- `isBinaryContentType` (identical in both classes): the header is
present and is exactly one of `binaryMimeTypes` or begins with one of
`binaryMimeTypeHeads`. -/
def isBinaryContentType : Option String → Bool
  | none => false
  | some ct => binaryMimeTypes.contains ct
      || binaryMimeTypeHeads.any (fun h => h.data.isPrefixOf ct.data)

/-- The decode step of the `end` handler (identical in both classes),
run only when at least one chunk arrived: JSON content types go through
`JSON.parse(data.join(''))` (`.error` = the `SyntaxError` caught and
re-rejected), binary content types through `Buffer.concat(data)`, and
everything else through `data.join('')`. -/
def decodeData (jp : String → Option JsonValue) (ct : Option String)
    (chunks : List String) : Except String DecodedBody :=
  let joined := String.join chunks
  if isJsonContentType ct then
    match jp joined with
    | some v => .ok (.json v)
    | none => .error joined
  else if isBinaryContentType ct then .ok (.bytes joined)
  else .ok (.text joined)

/-- Decision of the legacy `end` handler for one attempt:
`ok` = `resolve(res)`, `failRetryable` = the non-2xx branch that either
retries or becomes `reject(res)`, `failTerminal` = `reject(err)` from a
parse failure (never retried). -/
inductive EndDecision where
  | ok (r : HttpRes)
  | failRetryable (r : HttpRes)
  | failTerminal (e : TypedError)
deriving DecidableEq

/-- The legacy `response.on('end', ...)` handler body: with no chunks,
`res.data` stays `undefined` and the status decides resolve versus the
retry-or-reject branch; with chunks, the body is decoded first (a parse
failure rejects immediately) and then the status decides. -/
def legacyEnd (jp : String → Option JsonValue) (statusCode : Nat)
    (ct : Option String) (chunks : List String) : EndDecision :=
  if chunks.isEmpty then
    if isSuccessStatusCode statusCode then .ok ⟨statusCode, none⟩
    else .failRetryable ⟨statusCode, none⟩
  else
    match decodeData jp ct chunks with
    | .error raw => .failTerminal (.jsonParseError raw)
    | .ok d =>
      if isSuccessStatusCode statusCode then .ok ⟨statusCode, some d⟩
      else .failRetryable ⟨statusCode, some d⟩

/-- How a single attempt settles when no retry budget remains.  This is
exactly the behaviour of the client variant's promise body, and of the
legacy loop once `retries < maxRetries` fails. -/
def settleAttempt (jp : String → Option JsonValue) : Attempt → Settled
  | .response st ct chunks =>
    match legacyEnd jp st ct chunks with
    | .ok r => .resolved r
    | .failRetryable r => .rejectedRes r
    | .failTerminal e => .rejectedErr e
  | .transportError m => .rejectedErr (.genericError m)
  | .timeout => .rejectedErr (.requestTimeout "Failed due timeout reason")
  | .abort => .rejectedErr (.serviceUnavailable "Failed due abort reason")
  | .syncThrow m => .rejectedErr (.genericError m)

/-- The legacy retry loop `performRequest` of `HttpService.makeRequest`.
`budget` is `maxRetries - retries` (so the code's `retries < maxRetries`
test is `budget ≠ 0`), `i` indexes the transport attempt, and the second
component counts transport attempts performed.  A non-2xx status, a
transport `error`, a `timeout` and an `abort` re-enter the loop while
budget remains; a resolve, a parse failure and a synchronous throw end
it at once. -/
def runLoop (tr : Nat → Attempt) (jp : String → Option JsonValue) :
    Nat → Nat → Settled × Nat
  | 0, i => (settleAttempt jp (tr i), 1)
  | b + 1, i =>
    match tr i with
    | .response st ct chunks =>
      match legacyEnd jp st ct chunks with
      | .ok r => (.resolved r, 1)
      | .failTerminal e => (.rejectedErr e, 1)
      | .failRetryable _ =>
        let p := runLoop tr jp b (i + 1)
        (p.1, p.2 + 1)
    | .transportError _ =>
      let p := runLoop tr jp b (i + 1)
      (p.1, p.2 + 1)
    | .timeout =>
      let p := runLoop tr jp b (i + 1)
      (p.1, p.2 + 1)
    | .abort =>
      let p := runLoop tr jp b (i + 1)
      (p.1, p.2 + 1)
    | .syncThrow m => (.rejectedErr (.genericError m), 1)

/-- `HttpService.makeRequest`: destructures `maxRetries = 0` from the
options and runs the retry loop from attempt 0 with full budget. -/
def HttpService.makeRequest (tr : Nat → Attempt) (jp : String → Option JsonValue)
    (opts : ReqOptions) : Settled × Nat :=
  runLoop tr jp (opts.maxRetries.getD 0) 0

/-- The digest selected by both callbacks:
`cert.fingerprint256 || cert.fingerprint` — the SHA-256 field when it is
present and non-empty (truthy), otherwise the legacy field. -/
def selectedFingerprint (cert : PeerCert) : String :=
  match cert.fingerprint256 with
  | some f => if f = "" then cert.fingerprint else f
  | none => cert.fingerprint

/-- The `checkServerIdentity` closure built by
`HttpService.setCheckServerIdentity`: accepts when the captured
`hostFingerprint` is falsy or equals the selected certificate digest,
otherwise returns the mismatch `Error`. -/
def HttpService.mkCheckServerIdentity (hostFingerprint : String) :
    String → PeerCert → Option String := fun host cert =>
  let certFingerprint := selectedFingerprint cert
  if hostFingerprint = "" ∨ hostFingerprint = certFingerprint then none
  else some ("Fingerprint for host " ++ host ++ " does not match")

/-- The `checkServerIdentity` closure built by
`HttpClientService.setCheckServerIdentity`: accepts exactly when the
captured `hostFingerprint` equals the selected certificate digest. -/
def HttpClientService.mkCheckServerIdentity (hostFingerprint : String) :
    String → PeerCert → Option String := fun host cert =>
  let certFingerprint := selectedFingerprint cert
  if hostFingerprint = certFingerprint then none
  else some ("Fingerprint for host " ++ host ++ " does not match")

/-- Shared shape of both `setCheckServerIdentity` methods: no-op when
the fingerprint is falsy (`undefined` or empty); otherwise write the
given callback onto the existing `Agent`'s options, or install a fresh
`Agent` carrying it. -/
def installCheckServerIdentity (cb : String → PeerCert → Option String)
    (opts : ReqOptions) (hostFingerprint : Option String) : ReqOptions :=
  match hostFingerprint with
  | none => opts
  | some f =>
    if f = "" then opts
    else
      match opts.agent with
      | some a => { opts with agent := some { a with checkServerIdentity := some cb } }
      | none => { opts with agent := some { checkServerIdentity := some cb } }

/-- `HttpService.setCheckServerIdentity` as a transformation of the
caller's options object. -/
def HttpService.setCheckServerIdentity (opts : ReqOptions)
    (hostFingerprint : Option String) : ReqOptions :=
  installCheckServerIdentity
    (HttpService.mkCheckServerIdentity (hostFingerprint.getD "")) opts hostFingerprint

/-- `HttpClientService.setCheckServerIdentity` as a transformation of
the caller's options object. -/
def HttpClientService.setCheckServerIdentity (opts : ReqOptions)
    (hostFingerprint : Option String) : ReqOptions :=
  installCheckServerIdentity
    (HttpClientService.mkCheckServerIdentity (hostFingerprint.getD "")) opts hostFingerprint

/-- The common body of the four legacy public operations: set the
method on the options, apply the TLS binder, run `makeRequest`, and pass
its promise through the `to` adapter.  Returns the result tuple, the
caller's options object as it stands after the call, and the number of
transport attempts performed. -/
def HttpService.exec (tr : Nat → Attempt) (jp : String → Option JsonValue)
    (method : HttpMethod) (opts : ReqOptions) (hostFingerprint : Option String) :
    (Option TupleError × Option HttpRes) × ReqOptions × Nat :=
  let o1 := { opts with method := some method }
  let o2 := HttpService.setCheckServerIdentity o1 hostFingerprint
  let p := HttpService.makeRequest tr jp o2
  (toAdapter p.1, o2, p.2)

/-- `HttpService.get`. -/
def HttpService.get (tr : Nat → Attempt) (jp : String → Option JsonValue)
    (opts : ReqOptions) (hostFingerprint : Option String) :
    (Option TupleError × Option HttpRes) × ReqOptions × Nat :=
  HttpService.exec tr jp .GET opts hostFingerprint

/-- `HttpService.post` (the request body is written to the transport and
does not influence the modelled outcome). -/
def HttpService.post (tr : Nat → Attempt) (jp : String → Option JsonValue)
    (opts : ReqOptions) (hostFingerprint : Option String) (body : Option String) :
    (Option TupleError × Option HttpRes) × ReqOptions × Nat :=
  let _ := body
  HttpService.exec tr jp .POST opts hostFingerprint

/-- `HttpService.put`. -/
def HttpService.put (tr : Nat → Attempt) (jp : String → Option JsonValue)
    (opts : ReqOptions) (hostFingerprint : Option String) (body : Option String) :
    (Option TupleError × Option HttpRes) × ReqOptions × Nat :=
  let _ := body
  HttpService.exec tr jp .PUT opts hostFingerprint

/-- `HttpService.delete`. -/
def HttpService.delete (tr : Nat → Attempt) (jp : String → Option JsonValue)
    (opts : ReqOptions) (hostFingerprint : Option String) (body : Option String) :
    (Option TupleError × Option HttpRes) × ReqOptions × Nat :=
  let _ := body
  HttpService.exec tr jp .DELETE opts hostFingerprint

/-- Result of the WHATWG `new URL(...)` constructor, as consumed by
`HttpClientService.makeRequest`: the normalised `protocol` (with its
trailing colon), the `hostname`, and the `port` (`none` for the empty
port string). -/
structure URLParts where
  protocol : String
  hostname : String
  port : Option Nat := none

/-- How the host appears inside the template literal
`Host "${options.host}" must include protocol`: an absent field prints
as `undefined`. -/
def hostShown (opts : ReqOptions) : String :=
  match opts.host with
  | some h => h
  | none => "undefined"

/-- `HttpClientService.makeRequest`.  `purl` models `new URL(...)`
(`none` = the constructor threw).  The method is written onto the
options first; a failed parse throws the validation error before any
transport use; on success the options' `host`/`port` are overwritten
(`options.port = parsedHost.port || options.port`), then the scheme is
checked (`https:` / `http:`, anything else throws) and exactly one
transport attempt runs inside the promise.  Returns the thrown-or-
settled outcome, the options object after the call, and the number of
transport attempts. -/
def HttpClientService.makeRequest (purl : String → Option URLParts)
    (tr : Nat → Attempt) (jp : String → Option JsonValue)
    (method : HttpMethod) (opts : ReqOptions) :
    Except TypedError Settled × ReqOptions × Nat :=
  let o1 := { opts with method := some method }
  match purl (o1.host.getD "") with
  | none =>
    (.error (.genericError ("Host \"" ++ hostShown o1 ++ "\" must include protocol")), o1, 0)
  | some u =>
    let o2 := { o1 with
      host := some u.hostname
      port := match u.port with
        | some p => some p
        | none => o1.port }
    if u.protocol = "https:" ∨ u.protocol = "http:" then
      (.ok (settleAttempt jp (tr 0)), o2, 1)
    else
      (.error (.genericError ("Unknown protocol, " ++ u.protocol)), o2, 0)

/-- The common body of the four client public operations: apply the TLS
binder, then `makeRequest`; a synchronous throw escapes the `async`
method as a rejection (`to` is never reached), while a settled promise
goes through the `to` adapter. -/
def HttpClientService.exec (purl : String → Option URLParts)
    (tr : Nat → Attempt) (jp : String → Option JsonValue)
    (method : HttpMethod) (opts : ReqOptions) (hostFingerprint : Option String) :
    Except TypedError (Option TupleError × Option HttpRes) × ReqOptions × Nat :=
  let o1 := HttpClientService.setCheckServerIdentity opts hostFingerprint
  match HttpClientService.makeRequest purl tr jp method o1 with
  | (.error e, o, n) => (.error e, o, n)
  | (.ok s, o, n) => (.ok (toAdapter s), o, n)

/-- `HttpClientService.get`. -/
def HttpClientService.get (purl : String → Option URLParts)
    (tr : Nat → Attempt) (jp : String → Option JsonValue)
    (opts : ReqOptions) (hostFingerprint : Option String) :
    Except TypedError (Option TupleError × Option HttpRes) × ReqOptions × Nat :=
  HttpClientService.exec purl tr jp .GET opts hostFingerprint

/-- `HttpClientService.post`. -/
def HttpClientService.post (purl : String → Option URLParts)
    (tr : Nat → Attempt) (jp : String → Option JsonValue)
    (opts : ReqOptions) (hostFingerprint : Option String) (body : Option String) :
    Except TypedError (Option TupleError × Option HttpRes) × ReqOptions × Nat :=
  let _ := body
  HttpClientService.exec purl tr jp .POST opts hostFingerprint

/-- `HttpClientService.put`. -/
def HttpClientService.put (purl : String → Option URLParts)
    (tr : Nat → Attempt) (jp : String → Option JsonValue)
    (opts : ReqOptions) (hostFingerprint : Option String) (body : Option String) :
    Except TypedError (Option TupleError × Option HttpRes) × ReqOptions × Nat :=
  let _ := body
  HttpClientService.exec purl tr jp .PUT opts hostFingerprint

/-- `HttpClientService.delete`. -/
def HttpClientService.delete (purl : String → Option URLParts)
    (tr : Nat → Attempt) (jp : String → Option JsonValue)
    (opts : ReqOptions) (hostFingerprint : Option String) (body : Option String) :
    Except TypedError (Option TupleError × Option HttpRes) × ReqOptions × Nat :=
  let _ := body
  HttpClientService.exec purl tr jp .DELETE opts hostFingerprint

/-- A well-formed `HttpServiceResponse` tuple: exactly one slot is
non-null/defined. -/
def wellFormedTuple (p : Option TupleError × Option HttpRes) : Prop :=
  (∃ e, p = (some e, none)) ∨ (∃ r, p = (none, some r))

/-- The retryable failure kinds of the legacy loop: a response whose
`end` handler lands in the non-2xx retry-or-reject branch, a transport
`error`, a `timeout`, or an `abort`.  A resolve, a parse failure and a
synchronous throw are not retryable. -/
def retryableAttempt (jp : String → Option JsonValue) : Attempt → Prop
  | .response st ct chunks => ∃ r, legacyEnd jp st ct chunks = .failRetryable r
  | .transportError _ => True
  | .timeout => True
  | .abort => True
  | .syncThrow _ => False

/-- Value of the `agent` field after `setCheckServerIdentity`:
unchanged for a falsy fingerprint; otherwise the existing `Agent` with
the callback written onto its options, or a fresh `Agent` carrying it. -/
def agentAfterInstall (cb : String → PeerCert → Option String)
    (a : Option AgentModel) : Option String → Option AgentModel
  | none => a
  | some f =>
    if f = "" then a
    else
      some (match a with
        | some a0 => { a0 with checkServerIdentity := some cb }
        | none => { checkServerIdentity := some cb })

theorem installCSI_preserves (cb : String → PeerCert → Option String)
    (opts : ReqOptions) (fp : Option String) :
    (installCheckServerIdentity cb opts fp).host = opts.host ∧
    (installCheckServerIdentity cb opts fp).port = opts.port ∧
    (installCheckServerIdentity cb opts fp).method = opts.method ∧
    (installCheckServerIdentity cb opts fp).maxRetries = opts.maxRetries := by
  unfold installCheckServerIdentity
  cases fp with
  | none => exact ⟨rfl, rfl, rfl, rfl⟩
  | some f =>
    by_cases hf : f = ""
    · simp [hf]
    · simp only [if_neg hf]
      cases opts.agent <;> exact ⟨rfl, rfl, rfl, rfl⟩

-- The code's 2xx test agrees with the plain `200 ≤ s ≤ 299` reading on
-- every realistic (at most three digit) status code; the regex
-- `/2\d{2}/` is unanchored, so this is not true of arbitrary numbers
-- (for instance `1200` passes it).
set_option maxRecDepth 10000 in
theorem isSuccessStatusCode_iff_2xx :
    ∀ s : Nat, s < 1000 → (isSuccessStatusCode s = true ↔ 200 ≤ s ∧ s ≤ 299) := by
  decide

theorem toAdapter_wellFormed (s : Settled) : wellFormedTuple (toAdapter s) := by
  cases s with
  | resolved r => exact Or.inr ⟨r, rfl⟩
  | rejectedRes r => exact Or.inl ⟨.ofRes r, rfl⟩
  | rejectedErr e => exact Or.inl ⟨.ofErr e, rfl⟩

theorem runLoop_zero (tr : Nat → Attempt) (jp : String → Option JsonValue) (i : Nat) :
    runLoop tr jp 0 i = (settleAttempt jp (tr i), 1) := rfl

theorem runLoop_ok (tr : Nat → Attempt) (jp : String → Option JsonValue)
    (b i st : Nat) (ct : Option String) (chunks : List String) (r : HttpRes)
    (ha : tr i = .response st ct chunks)
    (he : legacyEnd jp st ct chunks = .ok r) :
    runLoop tr jp b i = (.resolved r, 1) := by
  cases b with
  | zero => simp [runLoop, settleAttempt, ha, he]
  | succ b => simp [runLoop, ha, he]

theorem runLoop_terminal (tr : Nat → Attempt) (jp : String → Option JsonValue)
    (b i st : Nat) (ct : Option String) (chunks : List String) (e : TypedError)
    (ha : tr i = .response st ct chunks)
    (he : legacyEnd jp st ct chunks = .failTerminal e) :
    runLoop tr jp b i = (.rejectedErr e, 1) := by
  cases b with
  | zero => simp [runLoop, settleAttempt, ha, he]
  | succ b => simp [runLoop, ha, he]

theorem runLoop_retryable_all (tr : Nat → Attempt) (jp : String → Option JsonValue) :
    ∀ b i, (∀ k, k ≤ b → retryableAttempt jp (tr (i + k))) →
      runLoop tr jp b i = (settleAttempt jp (tr (i + b)), b + 1) := by
  intro b
  induction b with
  | zero => intro i _; simp [runLoop]
  | succ b ih =>
    intro i h
    have h0 := h 0 (Nat.zero_le _)
    rw [Nat.add_zero] at h0
    have hrest : ∀ k, k ≤ b → retryableAttempt jp (tr (i + 1 + k)) := by
      intro k hk
      have hh := h (k + 1) (Nat.succ_le_succ hk)
      rwa [Nat.add_comm k 1, ← Nat.add_assoc] at hh
    have hIH := ih (i + 1) hrest
    have harith : i + 1 + b = i + (b + 1) := by omega
    cases ha : tr i with
    | response st ct chunks =>
      rw [ha] at h0
      simp only [retryableAttempt] at h0
      obtain ⟨r, hr⟩ := h0
      simp [runLoop, ha, hr, hIH, harith]
    | transportError m => simp [runLoop, ha, hIH, harith]
    | timeout => simp [runLoop, ha, hIH, harith]
    | abort => simp [runLoop, ha, hIH, harith]
    | syncThrow m =>
      rw [ha] at h0
      simp only [retryableAttempt] at h0


theorem installCSI_eq (cb : String → PeerCert → Option String)
    (opts : ReqOptions) (fp : Option String) :
    installCheckServerIdentity cb opts fp =
      { opts with agent := agentAfterInstall cb opts.agent fp } := by
  unfold installCheckServerIdentity agentAfterInstall
  cases fp with
  | none => rfl
  | some f =>
    by_cases hf : f = ""
    · simp only [if_pos hf]
    · simp only [if_neg hf]
      cases opts.agent <;> rfl

theorem setCSI_legacy_eq (opts : ReqOptions) (fp : Option String) :
    HttpService.setCheckServerIdentity opts fp =
      { opts with agent := (agentAfterInstall
          (HttpService.mkCheckServerIdentity (fp.getD "")) opts.agent fp) } :=
  installCSI_eq _ _ _

theorem setCSI_client_eq (opts : ReqOptions) (fp : Option String) :
    HttpClientService.setCheckServerIdentity opts fp =
      { opts with agent := (agentAfterInstall
          (HttpClientService.mkCheckServerIdentity (fp.getD "")) opts.agent fp) } :=
  installCSI_eq _ _ _

theorem legacyExec_eq (tr : Nat → Attempt) (jp : String → Option JsonValue)
    (method : HttpMethod) (opts : ReqOptions) (fp : Option String) :
    HttpService.exec tr jp method opts fp =
      (toAdapter (runLoop tr jp (opts.maxRetries.getD 0) 0).1,
       { opts with
           method := some method
           agent := (agentAfterInstall
             (HttpService.mkCheckServerIdentity (fp.getD "")) opts.agent fp) },
       (runLoop tr jp (opts.maxRetries.getD 0) 0).2) := by
  unfold HttpService.exec HttpService.makeRequest
  simp only [setCSI_legacy_eq]

theorem clientExec_invalid (purl : String → Option URLParts) (tr : Nat → Attempt)
    (jp : String → Option JsonValue) (method : HttpMethod) (opts : ReqOptions)
    (fp : Option String) (h : purl (opts.host.getD "") = none) :
    HttpClientService.exec purl tr jp method opts fp =
      (.error (.genericError ("Host \"" ++ hostShown opts ++ "\" must include protocol")),
       { opts with
           method := some method
           agent := (agentAfterInstall
             (HttpClientService.mkCheckServerIdentity (fp.getD "")) opts.agent fp) }, 0) := by
  unfold HttpClientService.exec HttpClientService.makeRequest
  simp only [setCSI_client_eq, h]
  rfl

theorem clientExec_valid (purl : String → Option URLParts) (tr : Nat → Attempt)
    (jp : String → Option JsonValue) (method : HttpMethod) (opts : ReqOptions)
    (fp : Option String) (u : URLParts)
    (h : purl (opts.host.getD "") = some u)
    (hp : u.protocol = "https:" ∨ u.protocol = "http:") :
    HttpClientService.exec purl tr jp method opts fp =
      (.ok (toAdapter (settleAttempt jp (tr 0))),
       { opts with
           method := some method
           agent := (agentAfterInstall
             (HttpClientService.mkCheckServerIdentity (fp.getD "")) opts.agent fp)
           host := some u.hostname
           port := match u.port with
             | some p => some p
             | none => opts.port }, 1) := by
  unfold HttpClientService.exec HttpClientService.makeRequest
  simp only [setCSI_client_eq, h]
  rw [if_pos hp]

theorem clientExec_unknownProtocol (purl : String → Option URLParts) (tr : Nat → Attempt)
    (jp : String → Option JsonValue) (method : HttpMethod) (opts : ReqOptions)
    (fp : Option String) (u : URLParts)
    (h : purl (opts.host.getD "") = some u)
    (hp : ¬(u.protocol = "https:" ∨ u.protocol = "http:")) :
    HttpClientService.exec purl tr jp method opts fp =
      (.error (.genericError ("Unknown protocol, " ++ u.protocol)),
       { opts with
           method := some method
           agent := (agentAfterInstall
             (HttpClientService.mkCheckServerIdentity (fp.getD "")) opts.agent fp)
           host := some u.hostname
           port := match u.port with
             | some p => some p
             | none => opts.port }, 0) := by
  unfold HttpClientService.exec HttpClientService.makeRequest
  simp only [setCSI_client_eq, h]
  rw [if_neg hp]

/-- C1 (counterexample): in the client variant an invalid host (no
scheme) makes the public operation raise the validation error past the
boundary — the `async` method rejects before `to` can materialize the
failure into a tuple — contradicting the claim that every outcome,
including an invalid host, yields a ResultTuple. Zero attempts occur. -/
theorem clientGet_invalidHost_raises :
    (HttpClientService.get (fun _ => none) (fun _ => Attempt.timeout) (fun _ => none)
        { host := some "invalid-host" } none).1 =
      .error (.genericError "Host \"invalid-host\" must include protocol") ∧
    (HttpClientService.get (fun _ => none) (fun _ => Attempt.timeout) (fun _ => none)
        { host := some "invalid-host" } none).2.2 = 0 :=
  ⟨rfl, rfl⟩

/-- C1 (amended): every legacy-variant operation returns a well-formed
ResultTuple (exactly one slot filled); every client-variant operation
does too whenever the host parses with an `http:`/`https:` scheme, but
an unparseable host makes the client call raise the validation error
instead of returning a tuple. -/
theorem tuple_contract_amended :
    (∀ (tr : Nat → Attempt) (jp : String → Option JsonValue) (method : HttpMethod)
        (opts : ReqOptions) (fp : Option String),
        wellFormedTuple (HttpService.exec tr jp method opts fp).1) ∧
    (∀ (purl : String → Option URLParts) (tr : Nat → Attempt)
        (jp : String → Option JsonValue) (method : HttpMethod)
        (opts : ReqOptions) (fp : Option String) (p : Option TupleError × Option HttpRes),
        (HttpClientService.exec purl tr jp method opts fp).1 = .ok p →
        wellFormedTuple p) ∧
    (∀ (purl : String → Option URLParts) (tr : Nat → Attempt)
        (jp : String → Option JsonValue) (method : HttpMethod)
        (opts : ReqOptions) (fp : Option String),
        purl (opts.host.getD "") = none →
        (HttpClientService.exec purl tr jp method opts fp).1 =
          .error (.genericError ("Host \"" ++ hostShown opts ++ "\" must include protocol"))) := by
  refine ⟨?_, ?_, ?_⟩
  · intro tr jp method opts fp
    rw [legacyExec_eq]
    exact toAdapter_wellFormed _
  · intro purl tr jp method opts fp p hp
    cases h : purl (opts.host.getD "") with
    | none =>
      rw [clientExec_invalid purl tr jp method opts fp h] at hp
      simp at hp
    | some u =>
      by_cases hq : u.protocol = "https:" ∨ u.protocol = "http:"
      · rw [clientExec_valid purl tr jp method opts fp u h hq] at hp
        simp only [Except.ok.injEq] at hp
        rw [← hp]
        exact toAdapter_wellFormed _
      · rw [clientExec_unknownProtocol purl tr jp method opts fp u h hq] at hp
        simp at hp
  · intro purl tr jp method opts fp h
    rw [clientExec_invalid purl tr jp method opts fp h]

/-- C1 (witness). -/
theorem tuple_contract_amended_witness :
    wellFormedTuple (HttpService.exec (fun _ => Attempt.timeout) (fun _ => none) .GET {} none).1 ∧
    wellFormedTuple ((some (TupleError.ofErr (.requestTimeout "Failed due timeout reason")),
      none) : Option TupleError × Option HttpRes) ∧
    (HttpClientService.exec (fun _ => none) (fun _ => Attempt.timeout) (fun _ => none) .GET
        { host := some "nohost" } none).1 =
      .error (.genericError ("Host \"" ++ hostShown { host := some "nohost" } ++
        "\" must include protocol")) :=
  ⟨tuple_contract_amended.1 _ _ _ _ _,
   tuple_contract_amended.2.1 (fun _ => some ⟨"http:", "h", none⟩) (fun _ => Attempt.timeout)
     (fun _ => none) .GET {} none _ rfl,
   tuple_contract_amended.2.2 (fun _ => none) (fun _ => Attempt.timeout) (fun _ => none) .GET
     { host := some "nohost" } none rfl⟩

/-- C2: with `maxRetries = 0` (or absent, the destructuring default)
exactly one transport attempt occurs regardless of outcome, in the
legacy variant; the client variant likewise performs exactly one attempt
whenever the host parses with a supported scheme. -/
theorem maxRetriesZero_oneAttempt :
    (∀ (tr : Nat → Attempt) (jp : String → Option JsonValue) (method : HttpMethod)
        (opts : ReqOptions) (fp : Option String),
        opts.maxRetries.getD 0 = 0 →
        (HttpService.exec tr jp method opts fp).2.2 = 1) ∧
    (∀ (purl : String → Option URLParts) (tr : Nat → Attempt)
        (jp : String → Option JsonValue) (method : HttpMethod)
        (opts : ReqOptions) (fp : Option String) (u : URLParts),
        opts.maxRetries.getD 0 = 0 →
        purl (opts.host.getD "") = some u →
        (u.protocol = "https:" ∨ u.protocol = "http:") →
        (HttpClientService.exec purl tr jp method opts fp).2.2 = 1) := by
  constructor
  · intro tr jp method opts fp h
    rw [legacyExec_eq]
    show (runLoop tr jp (opts.maxRetries.getD 0) 0).2 = 1
    rw [h, runLoop_zero]
  · intro purl tr jp method opts fp u h hu hp
    rw [clientExec_valid purl tr jp method opts fp u hu hp]

/-- C2 (witness). -/
theorem maxRetriesZero_oneAttempt_witness :
    (HttpService.exec (fun _ => Attempt.abort) (fun _ => none) .POST {} none).2.2 = 1 ∧
    (HttpClientService.exec (fun _ => some ⟨"https:", "h", none⟩) (fun _ => Attempt.abort)
        (fun _ => none) .POST { host := some "https://h" } none).2.2 = 1 :=
  ⟨maxRetriesZero_oneAttempt.1 _ _ _ _ _ rfl,
   maxRetriesZero_oneAttempt.2 _ _ _ _ _ _ ⟨"https:", "h", none⟩ rfl rfl (Or.inl rfl)⟩

theorem legacyEnd_failRetryable_status (jp : String → Option JsonValue)
    (st : Nat) (ct : Option String) (chunks : List String) (r : HttpRes)
    (h : legacyEnd jp st ct chunks = .failRetryable r) : r.statusCode = st := by
  obtain ⟨rs, rd⟩ := r
  unfold legacyEnd at h
  by_cases hc : chunks.isEmpty = true
  · rw [if_pos hc] at h
    by_cases hs : isSuccessStatusCode st = true
    · rw [if_pos hs] at h
      simp at h
    · rw [if_neg hs] at h
      simp only [EndDecision.failRetryable.injEq, HttpRes.mk.injEq] at h
      exact h.1.symm
  · rw [if_neg hc] at h
    cases hd : decodeData jp ct chunks with
    | error raw =>
      rw [hd] at h
      simp at h
    | ok d =>
      rw [hd] at h
      have h' : (if isSuccessStatusCode st = true then EndDecision.ok ⟨st, some d⟩
          else EndDecision.failRetryable ⟨st, some d⟩) = .failRetryable ⟨rs, rd⟩ := h
      by_cases hs : isSuccessStatusCode st = true
      · rw [if_pos hs] at h'
        simp at h'
      · rw [if_neg hs] at h'
        simp only [EndDecision.failRetryable.injEq, HttpRes.mk.injEq] at h'
        exact h'.1.symm

/-- C3 (counterexample): the client variant performs exactly one
transport attempt even with `maxRetries = 1` and an always-failing
transport — `HttpClientService.makeRequest` never reads `maxRetries` —
where the claim demands `N + 1 = 2` attempts. -/
theorem client_ignores_maxRetries_counterexample :
    (HttpClientService.exec (fun _ => some ⟨"http:", "example.com", none⟩)
        (fun _ => Attempt.transportError "connection refused") (fun _ => none) .GET
        { host := some "http://example.com", maxRetries := some 1 } none).2.2 = 1 ∧
    (HttpClientService.exec (fun _ => some ⟨"http:", "example.com", none⟩)
        (fun _ => Attempt.transportError "connection refused") (fun _ => none) .GET
        { host := some "http://example.com", maxRetries := some 1 } none).2.2 ≠ 1 + 1 :=
  ⟨rfl, by decide⟩

/-- C3 (amended): in the legacy variant, a spec with `maxRetries = N`
and a transport failing retryably on every attempt performs exactly
`N + 1` attempts and the terminal error carries the last failure's
status or kind; the client variant ignores `maxRetries` and always
performs exactly one attempt once the host is valid. -/
theorem retry_exhaustion_amended :
    (∀ (tr : Nat → Attempt) (jp : String → Option JsonValue) (method : HttpMethod)
        (opts : ReqOptions) (fp : Option String) (N : Nat),
        opts.maxRetries.getD 0 = N →
        (∀ k, k ≤ N → retryableAttempt jp (tr k)) →
        (HttpService.exec tr jp method opts fp).2.2 = N + 1 ∧
        (HttpService.exec tr jp method opts fp).1 = toAdapter (settleAttempt jp (tr N)) ∧
        (∀ st ct chunks, tr N = .response st ct chunks →
          ∃ d, (HttpService.exec tr jp method opts fp).1.1 = some (.ofRes ⟨st, d⟩)) ∧
        (tr N = .timeout → (HttpService.exec tr jp method opts fp).1.1 =
          some (.ofErr (.requestTimeout "Failed due timeout reason"))) ∧
        (tr N = .abort → (HttpService.exec tr jp method opts fp).1.1 =
          some (.ofErr (.serviceUnavailable "Failed due abort reason"))) ∧
        (∀ m, tr N = .transportError m → (HttpService.exec tr jp method opts fp).1.1 =
          some (.ofErr (.genericError m)))) ∧
    (∀ (purl : String → Option URLParts) (tr : Nat → Attempt)
        (jp : String → Option JsonValue) (method : HttpMethod)
        (opts : ReqOptions) (fp : Option String) (u : URLParts),
        purl (opts.host.getD "") = some u →
        (u.protocol = "https:" ∨ u.protocol = "http:") →
        (HttpClientService.exec purl tr jp method opts fp).2.2 = 1) := by
  constructor
  · intro tr jp method opts fp N h hr
    have hrun : runLoop tr jp N 0 = (settleAttempt jp (tr N), N + 1) := by
      have := runLoop_retryable_all tr jp N 0 (by
        intro k hk
        rw [Nat.zero_add]
        exact hr k hk)
      rwa [Nat.zero_add] at this
    have hatt : (HttpService.exec tr jp method opts fp).2.2 = N + 1 := by
      rw [legacyExec_eq]
      show (runLoop tr jp (opts.maxRetries.getD 0) 0).2 = N + 1
      rw [h, hrun]
    have htup : (HttpService.exec tr jp method opts fp).1 =
        toAdapter (settleAttempt jp (tr N)) := by
      rw [legacyExec_eq]
      show toAdapter (runLoop tr jp (opts.maxRetries.getD 0) 0).1 =
        toAdapter (settleAttempt jp (tr N))
      rw [h, hrun]
    refine ⟨hatt, htup, ?_, ?_, ?_, ?_⟩
    · intro st ct chunks ha
      have h0 := hr N (Nat.le_refl N)
      rw [ha] at h0
      simp only [retryableAttempt] at h0
      obtain ⟨r, hre⟩ := h0
      refine ⟨r.data, ?_⟩
      have hstat := legacyEnd_failRetryable_status jp st ct chunks r hre
      have : settleAttempt jp (tr N) = .rejectedRes r := by
        rw [ha]
        simp [settleAttempt, hre]
      rw [htup, this]
      show some (TupleError.ofRes r) = some (.ofRes ⟨st, r.data⟩)
      rw [show r = (⟨st, r.data⟩ : HttpRes) from by
        obtain ⟨rs, rd⟩ := r
        simp only [HttpRes.mk.injEq]
        exact ⟨hstat, trivial⟩]
    · intro ha
      rw [htup, ha]
      rfl
    · intro ha
      rw [htup, ha]
      rfl
    · intro m ha
      rw [htup, ha]
      rfl
  · intro purl tr jp method opts fp u h hp
    rw [clientExec_valid purl tr jp method opts fp u h hp]

/-- C3 (witness). -/
theorem retry_exhaustion_amended_witness :
    (HttpService.exec (fun _ => Attempt.transportError "boom") (fun _ => none) .GET
        { maxRetries := some 2 } none).2.2 = 2 + 1 ∧
    (HttpClientService.exec (fun _ => some ⟨"http:", "h", none⟩)
        (fun _ => Attempt.transportError "boom") (fun _ => none) .GET
        { host := some "http://h" } none).2.2 = 1 :=
  ⟨(retry_exhaustion_amended.1 (fun _ => Attempt.transportError "boom") (fun _ => none) .GET
      { maxRetries := some 2 } none 2 rfl (fun _ _ => trivial)).1,
   retry_exhaustion_amended.2 (fun _ => some ⟨"http:", "h", none⟩)
     (fun _ => Attempt.transportError "boom") (fun _ => none) .GET
     { host := some "http://h" } none ⟨"http:", "h", none⟩ rfl (Or.inr rfl)⟩

theorem legacyEnd_parse_fail (jp : String → Option JsonValue) (st : Nat)
    (ct : Option String) (chunks : List String)
    (hne : chunks ≠ [])
    (hj : isJsonContentType ct = true)
    (hp : jp (String.join chunks) = none) :
    legacyEnd jp st ct chunks = .failTerminal (.jsonParseError (String.join chunks)) := by
  have hc : chunks.isEmpty = false := by
    simp [List.isEmpty_iff, hne]
  unfold legacyEnd decodeData
  simp [hc, hj, hp]

/-- C4: a malformed JSON body (the runtime parser throws) rejects
terminally with the parse error on the very first attempt, for any
status (in particular 2xx) and any remaining retry budget, in both
variants — a decode error is never retried. -/
theorem jsonParseError_terminal :
    (∀ (tr : Nat → Attempt) (jp : String → Option JsonValue) (method : HttpMethod)
        (opts : ReqOptions) (fp : Option String) (st : Nat) (ct : Option String)
        (chunks : List String),
        tr 0 = .response st ct chunks →
        isSuccessStatusCode st = true →
        chunks ≠ [] →
        isJsonContentType ct = true →
        jp (String.join chunks) = none →
        (HttpService.exec tr jp method opts fp).1 =
          (some (.ofErr (.jsonParseError (String.join chunks))), none) ∧
        (HttpService.exec tr jp method opts fp).2.2 = 1) ∧
    (∀ (purl : String → Option URLParts) (tr : Nat → Attempt)
        (jp : String → Option JsonValue) (method : HttpMethod)
        (opts : ReqOptions) (fp : Option String) (u : URLParts)
        (st : Nat) (ct : Option String) (chunks : List String),
        purl (opts.host.getD "") = some u →
        (u.protocol = "https:" ∨ u.protocol = "http:") →
        tr 0 = .response st ct chunks →
        isSuccessStatusCode st = true →
        chunks ≠ [] →
        isJsonContentType ct = true →
        jp (String.join chunks) = none →
        (HttpClientService.exec purl tr jp method opts fp).1 =
          .ok (some (.ofErr (.jsonParseError (String.join chunks))), none)) := by
  constructor
  · intro tr jp method opts fp st ct chunks ha _ hne hj hp
    have he := legacyEnd_parse_fail jp st ct chunks hne hj hp
    have hloop := runLoop_terminal tr jp (opts.maxRetries.getD 0) 0 st ct chunks _ ha he
    constructor
    · rw [legacyExec_eq]
      show toAdapter (runLoop tr jp (opts.maxRetries.getD 0) 0).1 = _
      rw [hloop]
      rfl
    · rw [legacyExec_eq]
      show (runLoop tr jp (opts.maxRetries.getD 0) 0).2 = 1
      rw [hloop]
  · intro purl tr jp method opts fp u st ct chunks hu hq ha _ hne hj hp
    have he := legacyEnd_parse_fail jp st ct chunks hne hj hp
    rw [clientExec_valid purl tr jp method opts fp u hu hq]
    show Except.ok (toAdapter (settleAttempt jp (tr 0))) = _
    rw [ha]
    simp [settleAttempt, he]
    rfl

/-- C4 (witness). -/
theorem jsonParseError_terminal_witness :
    ((HttpService.exec (fun _ => Attempt.response 200 (some "application/json") ["notjson"])
        (fun _ => none) .GET { maxRetries := some 3 } none).1 =
      (some (.ofErr (.jsonParseError (String.join ["notjson"]))), none) ∧
     (HttpService.exec (fun _ => Attempt.response 200 (some "application/json") ["notjson"])
        (fun _ => none) .GET { maxRetries := some 3 } none).2.2 = 1) ∧
    (HttpClientService.exec (fun _ => some ⟨"http:", "h", none⟩)
        (fun _ => Attempt.response 200 (some "application/json") ["notjson"])
        (fun _ => none) .GET { host := some "http://h" } none).1 =
      .ok (some (.ofErr (.jsonParseError (String.join ["notjson"]))), none) :=
  ⟨jsonParseError_terminal.1 (fun _ => Attempt.response 200 (some "application/json") ["notjson"])
      (fun _ => none) .GET { maxRetries := some 3 } none 200 (some "application/json")
      ["notjson"] rfl (by decide) (by decide) (by decide) rfl,
   jsonParseError_terminal.2 (fun _ => some ⟨"http:", "h", none⟩)
      (fun _ => Attempt.response 200 (some "application/json") ["notjson"])
      (fun _ => none) .GET { host := some "http://h" } none ⟨"http:", "h", none⟩
      200 (some "application/json") ["notjson"] rfl (Or.inr rfl) rfl (by decide)
      (by decide) (by decide) rfl⟩

/-- C5 (counterexample): the JSON content-type match is case-sensitive
(`/^application\/json/` has no `i` flag): a header `Application/json`
is not classified as JSON and the body is decoded as text even though
it would parse as JSON, where the claim demands a case-insensitive
match producing the JSON-parsed value. -/
theorem jsonContentType_caseSensitive_counterexample :
    isJsonContentType (some "Application/json") = false ∧
    decodeData (fun s => some s) (some "Application/json") ["1"] = .ok (.text "1") :=
  ⟨rfl, rfl⟩

/-- C5 (amended): the decoder classifies by the declared content type
with a case-SENSITIVE begins-with match for `application/json` (JSON
parse of the joined chunks, a parse failure raising the decode error);
exact equality with `application/pdf`/`application/p7s` or an `image/`
lead-in gives the raw byte buffer; everything else, including an absent
header, gives the UTF-8 text. -/
theorem contentType_classification_amended :
    (∀ s : String, isJsonContentType (some s) = "application/json".data.isPrefixOf s.data) ∧
    (∀ s : String, isBinaryContentType (some s) = true ↔
      (s = "application/pdf" ∨ s = "application/p7s" ∨
        "image/".data.isPrefixOf s.data = true)) ∧
    isJsonContentType none = false ∧
    isBinaryContentType none = false ∧
    (∀ (jp : String → Option JsonValue) (ct : Option String)
        (chunks : List String) (v : JsonValue),
        isJsonContentType ct = true → jp (String.join chunks) = some v →
        decodeData jp ct chunks = .ok (.json v)) ∧
    (∀ (jp : String → Option JsonValue) (ct : Option String) (chunks : List String),
        isJsonContentType ct = true → jp (String.join chunks) = none →
        decodeData jp ct chunks = .error (String.join chunks)) ∧
    (∀ (jp : String → Option JsonValue) (ct : Option String) (chunks : List String),
        isJsonContentType ct = false → isBinaryContentType ct = true →
        decodeData jp ct chunks = .ok (.bytes (String.join chunks))) ∧
    (∀ (jp : String → Option JsonValue) (ct : Option String) (chunks : List String),
        isJsonContentType ct = false → isBinaryContentType ct = false →
        decodeData jp ct chunks = .ok (.text (String.join chunks))) := by
  refine ⟨fun s => rfl, ?_, rfl, rfl, ?_, ?_, ?_, ?_⟩
  · intro s
    simp [isBinaryContentType, binaryMimeTypes, binaryMimeTypeHeads, List.contains]
    tauto
  · intro jp ct chunks v hj hv
    unfold decodeData
    simp [hj, hv]
  · intro jp ct chunks hj hv
    unfold decodeData
    simp [hj, hv]
  · intro jp ct chunks hj hb
    unfold decodeData
    simp [hj, hb]
  · intro jp ct chunks hj hb
    unfold decodeData
    simp [hj, hb]

/-- C5 (witness). -/
theorem contentType_classification_amended_witness :
    decodeData (fun s => some s) (some "application/json") ["1"] =
      .ok (.json (String.join ["1"])) ∧
    decodeData (fun _ => none) (some "application/json") ["X"] =
      .error (String.join ["X"]) ∧
    decodeData (fun _ => none) (some "application/pdf") ["b"] =
      .ok (.bytes (String.join ["b"])) ∧
    decodeData (fun _ => none) (some "text/plain") ["t"] =
      .ok (.text (String.join ["t"])) ∧
    decodeData (fun _ => none) none ["t"] = .ok (.text (String.join ["t"])) :=
  ⟨contentType_classification_amended.2.2.2.2.1 (fun s => some s)
      (some "application/json") ["1"] (String.join ["1"]) (by decide) rfl,
   contentType_classification_amended.2.2.2.2.2.1 (fun _ => none)
      (some "application/json") ["X"] (by decide) rfl,
   contentType_classification_amended.2.2.2.2.2.2.1 (fun _ => none)
      (some "application/pdf") ["b"] (by decide) (by decide),
   contentType_classification_amended.2.2.2.2.2.2.2 (fun _ => none)
      (some "text/plain") ["t"] (by decide) (by decide),
   contentType_classification_amended.2.2.2.2.2.2.2 (fun _ => none)
      none ["t"] (by decide) (by decide)⟩

/-- C6: in the client variant, a host the URL parser rejects yields an
immediate local error naming the bad host, and a parseable host with a
scheme other than `http:`/`https:` yields an immediate local error
naming the unknown scheme; in both cases zero transport attempts occur
(so the failure is never retried). -/
theorem client_invalidHost_validation :
    (∀ (purl : String → Option URLParts) (tr : Nat → Attempt)
        (jp : String → Option JsonValue) (method : HttpMethod)
        (opts : ReqOptions) (fp : Option String),
        purl (opts.host.getD "") = none →
        (HttpClientService.exec purl tr jp method opts fp).1 =
          .error (.genericError ("Host \"" ++ hostShown opts ++ "\" must include protocol")) ∧
        (HttpClientService.exec purl tr jp method opts fp).2.2 = 0) ∧
    (∀ (purl : String → Option URLParts) (tr : Nat → Attempt)
        (jp : String → Option JsonValue) (method : HttpMethod)
        (opts : ReqOptions) (fp : Option String) (u : URLParts),
        purl (opts.host.getD "") = some u →
        u.protocol ≠ "https:" → u.protocol ≠ "http:" →
        (HttpClientService.exec purl tr jp method opts fp).1 =
          .error (.genericError ("Unknown protocol, " ++ u.protocol)) ∧
        (HttpClientService.exec purl tr jp method opts fp).2.2 = 0) := by
  constructor
  · intro purl tr jp method opts fp h
    rw [clientExec_invalid purl tr jp method opts fp h]
    exact ⟨rfl, rfl⟩
  · intro purl tr jp method opts fp u h h1 h2
    rw [clientExec_unknownProtocol purl tr jp method opts fp u h (by
      intro hc
      cases hc with
      | inl hc => exact h1 hc
      | inr hc => exact h2 hc)]
    exact ⟨rfl, rfl⟩

/-- C6 (witness). -/
theorem client_invalidHost_validation_witness :
    ((HttpClientService.exec (fun _ => none) (fun _ => Attempt.timeout) (fun _ => none) .GET
        { host := some "invalid-host" } none).1 =
      .error (.genericError ("Host \"" ++ hostShown { host := some "invalid-host" } ++
        "\" must include protocol")) ∧
     (HttpClientService.exec (fun _ => none) (fun _ => Attempt.timeout) (fun _ => none) .GET
        { host := some "invalid-host" } none).2.2 = 0) ∧
    ((HttpClientService.exec (fun _ => some ⟨"ftp:", "x", none⟩) (fun _ => Attempt.timeout)
        (fun _ => none) .GET { host := some "ftp://x" } none).1 =
      .error (.genericError ("Unknown protocol, " ++ "ftp:")) ∧
     (HttpClientService.exec (fun _ => some ⟨"ftp:", "x", none⟩) (fun _ => Attempt.timeout)
        (fun _ => none) .GET { host := some "ftp://x" } none).2.2 = 0) :=
  ⟨client_invalidHost_validation.1 (fun _ => none) (fun _ => Attempt.timeout) (fun _ => none)
      .GET { host := some "invalid-host" } none rfl,
   client_invalidHost_validation.2 (fun _ => some ⟨"ftp:", "x", none⟩) (fun _ => Attempt.timeout)
      (fun _ => none) .GET { host := some "ftp://x" } none ⟨"ftp:", "x", none⟩ rfl
      (by decide) (by decide)⟩

theorem legacyEnd_empty_ok (jp : String → Option JsonValue) (st : Nat) (ct : Option String)
    (hs : isSuccessStatusCode st = true) :
    legacyEnd jp st ct [] = .ok ⟨st, none⟩ := by
  unfold legacyEnd
  simp [hs]

theorem legacyEnd_empty_fail (jp : String → Option JsonValue) (st : Nat) (ct : Option String)
    (hs : isSuccessStatusCode st = false) :
    legacyEnd jp st ct [] = .failRetryable ⟨st, none⟩ := by
  unfold legacyEnd
  simp [hs]

/-- C7: an empty body with a 2xx status resolves with the decoded body
absent (`undefined`, not an empty string or buffer); an empty body with
a non-2xx status and no retries left rejects with the empty-bodied
response carrying its status code — in both variants. -/
theorem emptyBody_behaviour :
    (∀ (tr : Nat → Attempt) (jp : String → Option JsonValue) (method : HttpMethod)
        (opts : ReqOptions) (fp : Option String) (st : Nat) (ct : Option String),
        tr 0 = .response st ct [] →
        isSuccessStatusCode st = true →
        (HttpService.exec tr jp method opts fp).1 = (none, some ⟨st, none⟩)) ∧
    (∀ (tr : Nat → Attempt) (jp : String → Option JsonValue) (method : HttpMethod)
        (opts : ReqOptions) (fp : Option String) (st : Nat) (ct : Option String),
        tr 0 = .response st ct [] →
        isSuccessStatusCode st = false →
        opts.maxRetries.getD 0 = 0 →
        (HttpService.exec tr jp method opts fp).1 = (some (.ofRes ⟨st, none⟩), none)) ∧
    (∀ (purl : String → Option URLParts) (tr : Nat → Attempt)
        (jp : String → Option JsonValue) (method : HttpMethod)
        (opts : ReqOptions) (fp : Option String) (u : URLParts) (st : Nat) (ct : Option String),
        purl (opts.host.getD "") = some u →
        (u.protocol = "https:" ∨ u.protocol = "http:") →
        tr 0 = .response st ct [] →
        isSuccessStatusCode st = true →
        (HttpClientService.exec purl tr jp method opts fp).1 = .ok (none, some ⟨st, none⟩)) ∧
    (∀ (purl : String → Option URLParts) (tr : Nat → Attempt)
        (jp : String → Option JsonValue) (method : HttpMethod)
        (opts : ReqOptions) (fp : Option String) (u : URLParts) (st : Nat) (ct : Option String),
        purl (opts.host.getD "") = some u →
        (u.protocol = "https:" ∨ u.protocol = "http:") →
        tr 0 = .response st ct [] →
        isSuccessStatusCode st = false →
        (HttpClientService.exec purl tr jp method opts fp).1 =
          .ok (some (.ofRes ⟨st, none⟩), none)) := by
  refine ⟨?_, ?_, ?_, ?_⟩
  · intro tr jp method opts fp st ct ha hs
    have he := legacyEnd_empty_ok jp st ct hs
    have hloop := runLoop_ok tr jp (opts.maxRetries.getD 0) 0 st ct [] _ ha he
    rw [legacyExec_eq]
    show toAdapter (runLoop tr jp (opts.maxRetries.getD 0) 0).1 = _
    rw [hloop]
    rfl
  · intro tr jp method opts fp st ct ha hs hmr
    have he := legacyEnd_empty_fail jp st ct hs
    rw [legacyExec_eq]
    show toAdapter (runLoop tr jp (opts.maxRetries.getD 0) 0).1 = _
    rw [hmr, runLoop_zero, ha]
    show toAdapter (settleAttempt jp (.response st ct [])) = _
    simp [settleAttempt, he]
    rfl
  · intro purl tr jp method opts fp u st ct hu hq ha hs
    have he := legacyEnd_empty_ok jp st ct hs
    rw [clientExec_valid purl tr jp method opts fp u hu hq]
    show Except.ok (toAdapter (settleAttempt jp (tr 0))) = _
    rw [ha]
    simp [settleAttempt, he]
    rfl
  · intro purl tr jp method opts fp u st ct hu hq ha hs
    have he := legacyEnd_empty_fail jp st ct hs
    rw [clientExec_valid purl tr jp method opts fp u hu hq]
    show Except.ok (toAdapter (settleAttempt jp (tr 0))) = _
    rw [ha]
    simp [settleAttempt, he]
    rfl

/-- C7 (witness). -/
theorem emptyBody_behaviour_witness :
    (HttpService.exec (fun _ => Attempt.response 204 none []) (fun _ => none) .GET
        {} none).1 = (none, some ⟨204, none⟩) ∧
    (HttpService.exec (fun _ => Attempt.response 404 none []) (fun _ => none) .GET
        {} none).1 = (some (.ofRes ⟨404, none⟩), none) ∧
    (HttpClientService.exec (fun _ => some ⟨"http:", "h", none⟩)
        (fun _ => Attempt.response 204 none []) (fun _ => none) .GET
        { host := some "http://h" } none).1 = .ok (none, some ⟨204, none⟩) ∧
    (HttpClientService.exec (fun _ => some ⟨"http:", "h", none⟩)
        (fun _ => Attempt.response 404 none []) (fun _ => none) .GET
        { host := some "http://h" } none).1 = .ok (some (.ofRes ⟨404, none⟩), none) :=
  ⟨emptyBody_behaviour.1 (fun _ => Attempt.response 204 none []) (fun _ => none) .GET
      {} none 204 none rfl (by decide),
   emptyBody_behaviour.2.1 (fun _ => Attempt.response 404 none []) (fun _ => none) .GET
      {} none 404 none rfl (by decide) rfl,
   emptyBody_behaviour.2.2.1 (fun _ => some ⟨"http:", "h", none⟩)
      (fun _ => Attempt.response 204 none []) (fun _ => none) .GET
      { host := some "http://h" } none ⟨"http:", "h", none⟩ 204 none rfl (Or.inr rfl)
      rfl (by decide),
   emptyBody_behaviour.2.2.2 (fun _ => some ⟨"http:", "h", none⟩)
      (fun _ => Attempt.response 404 none []) (fun _ => none) .GET
      { host := some "http://h" } none ⟨"http:", "h", none⟩ 404 none rfl (Or.inr rfl)
      rfl (by decide)⟩

/-- C8: once the retry budget is exhausted, a timeout rejects with
`RequestTimeoutError("Failed due timeout reason")` and an abort with
`ServiceUnavailableError("Failed due abort reason")` — typed errors with
fixed messages, not the raw transport payload — in the legacy variant
after `N + 1` timed-out/aborted attempts, and in the client variant on
its single attempt. -/
theorem timeout_abort_typedErrors :
    (∀ (tr : Nat → Attempt) (jp : String → Option JsonValue) (method : HttpMethod)
        (opts : ReqOptions) (fp : Option String) (N : Nat),
        opts.maxRetries.getD 0 = N →
        (∀ k, k ≤ N → tr k = .timeout) →
        (HttpService.exec tr jp method opts fp).1 =
          (some (.ofErr (.requestTimeout "Failed due timeout reason")), none)) ∧
    (∀ (tr : Nat → Attempt) (jp : String → Option JsonValue) (method : HttpMethod)
        (opts : ReqOptions) (fp : Option String) (N : Nat),
        opts.maxRetries.getD 0 = N →
        (∀ k, k ≤ N → tr k = .abort) →
        (HttpService.exec tr jp method opts fp).1 =
          (some (.ofErr (.serviceUnavailable "Failed due abort reason")), none)) ∧
    (∀ (purl : String → Option URLParts) (tr : Nat → Attempt)
        (jp : String → Option JsonValue) (method : HttpMethod)
        (opts : ReqOptions) (fp : Option String) (u : URLParts),
        purl (opts.host.getD "") = some u →
        (u.protocol = "https:" ∨ u.protocol = "http:") →
        tr 0 = .timeout →
        (HttpClientService.exec purl tr jp method opts fp).1 =
          .ok (some (.ofErr (.requestTimeout "Failed due timeout reason")), none)) ∧
    (∀ (purl : String → Option URLParts) (tr : Nat → Attempt)
        (jp : String → Option JsonValue) (method : HttpMethod)
        (opts : ReqOptions) (fp : Option String) (u : URLParts),
        purl (opts.host.getD "") = some u →
        (u.protocol = "https:" ∨ u.protocol = "http:") →
        tr 0 = .abort →
        (HttpClientService.exec purl tr jp method opts fp).1 =
          .ok (some (.ofErr (.serviceUnavailable "Failed due abort reason")), none)) := by
  refine ⟨?_, ?_, ?_, ?_⟩
  · intro tr jp method opts fp N hmr hk
    have hrun : runLoop tr jp N 0 = (settleAttempt jp (tr N), N + 1) := by
      have := runLoop_retryable_all tr jp N 0 (by
        intro k hkk
        rw [Nat.zero_add, hk k hkk]
        exact trivial)
      rwa [Nat.zero_add] at this
    rw [legacyExec_eq]
    show toAdapter (runLoop tr jp (opts.maxRetries.getD 0) 0).1 = _
    rw [hmr, hrun, hk N (Nat.le_refl N)]
    rfl
  · intro tr jp method opts fp N hmr hk
    have hrun : runLoop tr jp N 0 = (settleAttempt jp (tr N), N + 1) := by
      have := runLoop_retryable_all tr jp N 0 (by
        intro k hkk
        rw [Nat.zero_add, hk k hkk]
        exact trivial)
      rwa [Nat.zero_add] at this
    rw [legacyExec_eq]
    show toAdapter (runLoop tr jp (opts.maxRetries.getD 0) 0).1 = _
    rw [hmr, hrun, hk N (Nat.le_refl N)]
    rfl
  · intro purl tr jp method opts fp u hu hq ha
    rw [clientExec_valid purl tr jp method opts fp u hu hq]
    show Except.ok (toAdapter (settleAttempt jp (tr 0))) = _
    rw [ha]
    rfl
  · intro purl tr jp method opts fp u hu hq ha
    rw [clientExec_valid purl tr jp method opts fp u hu hq]
    show Except.ok (toAdapter (settleAttempt jp (tr 0))) = _
    rw [ha]
    rfl

/-- C8 (witness). -/
theorem timeout_abort_typedErrors_witness :
    (HttpService.exec (fun _ => Attempt.timeout) (fun _ => none) .GET
        { maxRetries := some 2 } none).1 =
      (some (.ofErr (.requestTimeout "Failed due timeout reason")), none) ∧
    (HttpService.exec (fun _ => Attempt.abort) (fun _ => none) .GET
        { maxRetries := some 2 } none).1 =
      (some (.ofErr (.serviceUnavailable "Failed due abort reason")), none) ∧
    (HttpClientService.exec (fun _ => some ⟨"http:", "h", none⟩) (fun _ => Attempt.timeout)
        (fun _ => none) .GET { host := some "http://h" } none).1 =
      .ok (some (.ofErr (.requestTimeout "Failed due timeout reason")), none) ∧
    (HttpClientService.exec (fun _ => some ⟨"http:", "h", none⟩) (fun _ => Attempt.abort)
        (fun _ => none) .GET { host := some "http://h" } none).1 =
      .ok (some (.ofErr (.serviceUnavailable "Failed due abort reason")), none) :=
  ⟨timeout_abort_typedErrors.1 (fun _ => Attempt.timeout) (fun _ => none) .GET
      { maxRetries := some 2 } none 2 rfl (fun _ _ => rfl),
   timeout_abort_typedErrors.2.1 (fun _ => Attempt.abort) (fun _ => none) .GET
      { maxRetries := some 2 } none 2 rfl (fun _ _ => rfl),
   timeout_abort_typedErrors.2.2.1 (fun _ => some ⟨"http:", "h", none⟩)
      (fun _ => Attempt.timeout) (fun _ => none) .GET { host := some "http://h" } none
      ⟨"http:", "h", none⟩ rfl (Or.inr rfl) rfl,
   timeout_abort_typedErrors.2.2.2 (fun _ => some ⟨"http:", "h", none⟩)
      (fun _ => Attempt.abort) (fun _ => none) .GET { host := some "http://h" } none
      ⟨"http:", "h", none⟩ rfl (Or.inr rfl) rfl⟩

/-- C9: with no fingerprint the TLS binder leaves the options unchanged;
with a fingerprint it installs a fresh `Agent` (or augments an existing
one) whose `checkServerIdentity` callback compares the supplied
fingerprint to the peer certificate's SHA-256 digest, falling back to
the legacy digest field when the SHA-256 one is absent, accepts exactly
on equality, and on mismatch returns an error naming the host. -/
theorem tls_binder_behaviour :
    (∀ opts : ReqOptions, HttpService.setCheckServerIdentity opts none = opts) ∧
    (∀ opts : ReqOptions, HttpClientService.setCheckServerIdentity opts none = opts) ∧
    (∀ (opts : ReqOptions) (f : String), f ≠ "" → opts.agent = none →
      (HttpClientService.setCheckServerIdentity opts (some f)).agent =
        some ⟨some (HttpClientService.mkCheckServerIdentity f)⟩) ∧
    (∀ (opts : ReqOptions) (f : String) (a : AgentModel), f ≠ "" → opts.agent = some a →
      (HttpClientService.setCheckServerIdentity opts (some f)).agent =
        some { a with checkServerIdentity := (some (HttpClientService.mkCheckServerIdentity f)) }) ∧
    (∀ (opts : ReqOptions) (f : String), f ≠ "" → opts.agent = none →
      (HttpService.setCheckServerIdentity opts (some f)).agent =
        some ⟨some (HttpService.mkCheckServerIdentity f)⟩) ∧
    (∀ cert : PeerCert, cert.fingerprint256 = none →
      selectedFingerprint cert = cert.fingerprint) ∧
    (∀ (cert : PeerCert) (f256 : String), cert.fingerprint256 = some f256 → f256 ≠ "" →
      selectedFingerprint cert = f256) ∧
    (∀ (f host : String) (cert : PeerCert),
      HttpClientService.mkCheckServerIdentity f host cert = none ↔
        f = selectedFingerprint cert) ∧
    (∀ (f host : String) (cert : PeerCert), f ≠ "" →
      (HttpService.mkCheckServerIdentity f host cert = none ↔
        f = selectedFingerprint cert)) ∧
    (∀ (f host : String) (cert : PeerCert), f ≠ selectedFingerprint cert →
      HttpClientService.mkCheckServerIdentity f host cert =
        some ("Fingerprint for host " ++ host ++ " does not match")) := by
  refine ⟨fun opts => rfl, fun opts => rfl, ?_, ?_, ?_, ?_, ?_, ?_, ?_, ?_⟩
  · intro opts f hf ha
    rw [setCSI_client_eq]
    show agentAfterInstall (HttpClientService.mkCheckServerIdentity ((some f).getD ""))
      opts.agent (some f) = _
    simp [agentAfterInstall, hf, ha]
  · intro opts f a hf ha
    rw [setCSI_client_eq]
    show agentAfterInstall (HttpClientService.mkCheckServerIdentity ((some f).getD ""))
      opts.agent (some f) = _
    simp [agentAfterInstall, hf, ha]
  · intro opts f hf ha
    rw [setCSI_legacy_eq]
    show agentAfterInstall (HttpService.mkCheckServerIdentity ((some f).getD ""))
      opts.agent (some f) = _
    simp [agentAfterInstall, hf, ha]
  · intro cert h
    unfold selectedFingerprint
    rw [h]
  · intro cert f256 h hne
    unfold selectedFingerprint
    rw [h]
    simp [hne]
  · intro f host cert
    unfold HttpClientService.mkCheckServerIdentity
    by_cases heq : f = selectedFingerprint cert <;> simp [heq]
  · intro f host cert hf
    unfold HttpService.mkCheckServerIdentity
    by_cases heq : f = selectedFingerprint cert <;> simp [heq, hf]
  · intro f host cert heq
    unfold HttpClientService.mkCheckServerIdentity
    simp [heq]

/-- C9 (witness). -/
theorem tls_binder_behaviour_witness :
    HttpClientService.setCheckServerIdentity { host := some "h" } none =
      { host := some "h" } ∧
    (HttpClientService.setCheckServerIdentity { host := some "h" } (some "fp")).agent =
      some ⟨some (HttpClientService.mkCheckServerIdentity "fp")⟩ ∧
    (HttpService.setCheckServerIdentity {} (some "fp")).agent =
      some ⟨some (HttpService.mkCheckServerIdentity "fp")⟩ ∧
    selectedFingerprint ⟨none, "AA"⟩ = "AA" ∧
    selectedFingerprint ⟨some "BB", "AA"⟩ = "BB" ∧
    (HttpClientService.mkCheckServerIdentity "BB" "host1" ⟨some "BB", "AA"⟩ = none ↔
      "BB" = selectedFingerprint ⟨some "BB", "AA"⟩) ∧
    (HttpService.mkCheckServerIdentity "BB" "host1" ⟨some "BB", "AA"⟩ = none ↔
      "BB" = selectedFingerprint ⟨some "BB", "AA"⟩) ∧
    HttpClientService.mkCheckServerIdentity "XX" "host1" ⟨some "BB", "AA"⟩ =
      some ("Fingerprint for host " ++ "host1" ++ " does not match") :=
  ⟨tls_binder_behaviour.2.1 { host := some "h" },
   tls_binder_behaviour.2.2.1 { host := some "h" } "fp" (by decide) rfl,
   tls_binder_behaviour.2.2.2.2.1 {} "fp" (by decide) rfl,
   tls_binder_behaviour.2.2.2.2.2.1 ⟨none, "AA"⟩ rfl,
   tls_binder_behaviour.2.2.2.2.2.2.1 ⟨some "BB", "AA"⟩ "BB" rfl (by decide),
   tls_binder_behaviour.2.2.2.2.2.2.2.1 "BB" "host1" ⟨some "BB", "AA"⟩,
   tls_binder_behaviour.2.2.2.2.2.2.2.2.1 "BB" "host1" ⟨some "BB", "AA"⟩ (by decide),
   tls_binder_behaviour.2.2.2.2.2.2.2.2.2 "XX" "host1" ⟨some "BB", "AA"⟩ (by decide)⟩

/-- C10 (counterexample): (i) in the client variant, when the URL has
no explicit port the caller's `port` field is kept (`parsedHost.port ||
options.port`), not overwritten with the parsed (empty) port; (ii) a
legacy call whose written values coincide with what was passed leaves
the caller's options exactly equal to what they passed in, so the
object does not always differ after the call. -/
theorem options_mutation_counterexample :
    (HttpClientService.exec (fun _ => some ⟨"http:", "example.com", none⟩)
        (fun _ => Attempt.timeout) (fun _ => none) .GET
        { host := some "http://example.com", port := some 9999 } none).2.1.port =
      some 9999 ∧
    (HttpService.get (fun _ => Attempt.timeout) (fun _ => none)
        { method := some .GET } none).2.1 = { method := some .GET } :=
  ⟨rfl, rfl⟩

/-- C10 (amended): every public operation writes through the
caller-supplied options object: the method field is set to the verb
(also, in the client variant, when host validation fails); a non-empty
fingerprint installs the verifying agent; in the client variant a
parseable host overwrites the host field with the parsed hostname and
the port field with the URL's port when one is present, the caller's
port being kept otherwise; when every written value equals what was
already there, the options object ends up unchanged. -/
theorem options_mutation_amended :
    (∀ (tr : Nat → Attempt) (jp : String → Option JsonValue) (method : HttpMethod)
        (opts : ReqOptions) (fp : Option String),
        (HttpService.exec tr jp method opts fp).2.1.method = some method) ∧
    (∀ (tr : Nat → Attempt) (jp : String → Option JsonValue) (method : HttpMethod)
        (opts : ReqOptions) (f : String), f ≠ "" → opts.agent = none →
        (HttpService.exec tr jp method opts (some f)).2.1.agent =
          some ⟨some (HttpService.mkCheckServerIdentity f)⟩) ∧
    (∀ (purl : String → Option URLParts) (tr : Nat → Attempt)
        (jp : String → Option JsonValue) (method : HttpMethod)
        (opts : ReqOptions) (fp : Option String) (u : URLParts),
        purl (opts.host.getD "") = some u →
        (HttpClientService.exec purl tr jp method opts fp).2.1.method = some method ∧
        (HttpClientService.exec purl tr jp method opts fp).2.1.host = some u.hostname) ∧
    (∀ (purl : String → Option URLParts) (tr : Nat → Attempt)
        (jp : String → Option JsonValue) (method : HttpMethod)
        (opts : ReqOptions) (fp : Option String) (u : URLParts) (p : Nat),
        purl (opts.host.getD "") = some u → u.port = some p →
        (HttpClientService.exec purl tr jp method opts fp).2.1.port = some p) ∧
    (∀ (purl : String → Option URLParts) (tr : Nat → Attempt)
        (jp : String → Option JsonValue) (method : HttpMethod)
        (opts : ReqOptions) (fp : Option String) (u : URLParts),
        purl (opts.host.getD "") = some u → u.port = none →
        (HttpClientService.exec purl tr jp method opts fp).2.1.port = opts.port) ∧
    (∀ (purl : String → Option URLParts) (tr : Nat → Attempt)
        (jp : String → Option JsonValue) (method : HttpMethod)
        (opts : ReqOptions) (fp : Option String),
        purl (opts.host.getD "") = none →
        (HttpClientService.exec purl tr jp method opts fp).2.1.method = some method ∧
        (HttpClientService.exec purl tr jp method opts fp).2.1.host = opts.host) ∧
    (∀ (tr : Nat → Attempt) (jp : String → Option JsonValue) (method : HttpMethod)
        (opts : ReqOptions), opts.method = some method →
        (HttpService.exec tr jp method opts none).2.1 = opts) := by
  refine ⟨?_, ?_, ?_, ?_, ?_, ?_, ?_⟩
  · intro tr jp method opts fp
    rw [legacyExec_eq]
  · intro tr jp method opts f hf ha
    rw [legacyExec_eq]
    show agentAfterInstall (HttpService.mkCheckServerIdentity ((some f).getD ""))
      opts.agent (some f) = _
    simp [agentAfterInstall, hf, ha]
  · intro purl tr jp method opts fp u hu
    by_cases hq : u.protocol = "https:" ∨ u.protocol = "http:"
    · rw [clientExec_valid purl tr jp method opts fp u hu hq]
      exact ⟨rfl, rfl⟩
    · rw [clientExec_unknownProtocol purl tr jp method opts fp u hu hq]
      exact ⟨rfl, rfl⟩
  · intro purl tr jp method opts fp u p hu hp
    by_cases hq : u.protocol = "https:" ∨ u.protocol = "http:"
    · rw [clientExec_valid purl tr jp method opts fp u hu hq]
      show (match u.port with | some p => some p | none => opts.port) = some p
      rw [hp]
    · rw [clientExec_unknownProtocol purl tr jp method opts fp u hu hq]
      show (match u.port with | some p => some p | none => opts.port) = some p
      rw [hp]
  · intro purl tr jp method opts fp u hu hp
    by_cases hq : u.protocol = "https:" ∨ u.protocol = "http:"
    · rw [clientExec_valid purl tr jp method opts fp u hu hq]
      show (match u.port with | some p => some p | none => opts.port) = opts.port
      rw [hp]
    · rw [clientExec_unknownProtocol purl tr jp method opts fp u hu hq]
      show (match u.port with | some p => some p | none => opts.port) = opts.port
      rw [hp]
  · intro purl tr jp method opts fp hu
    rw [clientExec_invalid purl tr jp method opts fp hu]
    exact ⟨rfl, rfl⟩
  · intro tr jp method opts hm
    rw [legacyExec_eq]
    show ({ opts with
        method := some method
        agent := (agentAfterInstall
          (HttpService.mkCheckServerIdentity ((none : Option String).getD ""))
          opts.agent none) } : ReqOptions) = opts
    obtain ⟨o1, o2, o3, o4, o5, o6, o7, o8, o9⟩ := opts
    simp only [agentAfterInstall]
    have hm' : o5 = some method := hm
    rw [← hm']

/-- C10 (witness). -/
theorem options_mutation_amended_witness :
    (HttpService.exec (fun _ => Attempt.timeout) (fun _ => none) .PUT {} none).2.1.method =
      some .PUT ∧
    (HttpService.exec (fun _ => Attempt.timeout) (fun _ => none) .PUT {}
        (some "fp")).2.1.agent = some ⟨some (HttpService.mkCheckServerIdentity "fp")⟩ ∧
    ((HttpClientService.exec (fun _ => some ⟨"http:", "h", some 8080⟩) (fun _ => Attempt.timeout)
        (fun _ => none) .POST { host := some "http://h:8080" } none).2.1.method = some .POST ∧
     (HttpClientService.exec (fun _ => some ⟨"http:", "h", some 8080⟩) (fun _ => Attempt.timeout)
        (fun _ => none) .POST { host := some "http://h:8080" } none).2.1.host = some "h") ∧
    (HttpClientService.exec (fun _ => some ⟨"http:", "h", some 8080⟩) (fun _ => Attempt.timeout)
        (fun _ => none) .POST { host := some "http://h:8080" } none).2.1.port = some 8080 ∧
    (HttpClientService.exec (fun _ => some ⟨"http:", "h", none⟩) (fun _ => Attempt.timeout)
        (fun _ => none) .POST { host := some "http://h", port := some 7 } none).2.1.port =
      ({ host := some "http://h", port := some 7 } : ReqOptions).port ∧
    ((HttpClientService.exec (fun _ => none) (fun _ => Attempt.timeout)
        (fun _ => none) .POST { host := some "nope" } none).2.1.method = some .POST ∧
     (HttpClientService.exec (fun _ => none) (fun _ => Attempt.timeout)
        (fun _ => none) .POST { host := some "nope" } none).2.1.host =
       ({ host := some "nope" } : ReqOptions).host) ∧
    (HttpService.exec (fun _ => Attempt.timeout) (fun _ => none) .DELETE
        { method := some .DELETE } none).2.1 = { method := some .DELETE } :=
  ⟨options_mutation_amended.1 (fun _ => Attempt.timeout) (fun _ => none) .PUT {} none,
   options_mutation_amended.2.1 (fun _ => Attempt.timeout) (fun _ => none) .PUT {} "fp"
     (by decide) rfl,
   options_mutation_amended.2.2.1 (fun _ => some ⟨"http:", "h", some 8080⟩)
     (fun _ => Attempt.timeout) (fun _ => none) .POST { host := some "http://h:8080" } none
     ⟨"http:", "h", some 8080⟩ rfl,
   options_mutation_amended.2.2.2.1 (fun _ => some ⟨"http:", "h", some 8080⟩)
     (fun _ => Attempt.timeout) (fun _ => none) .POST { host := some "http://h:8080" } none
     ⟨"http:", "h", some 8080⟩ 8080 rfl rfl,
   options_mutation_amended.2.2.2.2.1 (fun _ => some ⟨"http:", "h", none⟩)
     (fun _ => Attempt.timeout) (fun _ => none) .POST
     { host := some "http://h", port := some 7 } none ⟨"http:", "h", none⟩ rfl rfl,
   options_mutation_amended.2.2.2.2.2.1 (fun _ => none) (fun _ => Attempt.timeout)
     (fun _ => none) .POST { host := some "nope" } none rfl,
   options_mutation_amended.2.2.2.2.2.2 (fun _ => Attempt.timeout) (fun _ => none) .DELETE
     { method := some .DELETE } rfl⟩
